import Mathlib

set_option maxRecDepth 100000

/-!
# Verification of the Medicine-Reminder core (shallow embedding)

This file embeds the two specified components of the repository:

* the reminder dispatcher (`src/scheduler.py`: `patient_matches_period`,
  `send_batch_for_period`; and the duplicate implementation in `src/app.py`:
  `matches_period`, `run_reminder_job`), and
* the disease matcher (`src/recommender.py`: `Recommender.recommend` with its
  substring / TF-IDF-similarity / fuzzy cascade and fallback),

and proves the spec's claims about them.

Modelling conventions:
* Mongo documents become a `Patient` structure whose fields are `Option String`
  (`none` = key absent); the dynamic `last_sent_<period>` fields become an
  association list `markers` keyed by the full field name.
* The SMTP send (`send_email` / `send_reminder_email`) is I/O whose only
  observable effect in the dispatch loop is its boolean success value; it is
  abstracted as an oracle `sendOk : Nat → Bool` giving the success of the send
  attempted for the patient at each list position.
* Python regular-expression searches of the form
  `re.search("w1|w2|...", text)` over literal alternatives succeed exactly when
  some alternative occurs as a substring of `text`; they are embedded that way.
* Strings are Lean `String`s; `str.lower`/`str.strip` are embedded over the
  ASCII range (`Char.toLower`, the four ASCII whitespace characters), which
  covers every string constant appearing in the program.
-/

/-! ## String helpers (Python `str` operations used by the code) -/

/-- `begMatch hay needle`: `needle` is a prefix of `hay`. -/
def begMatch : List Char → List Char → Bool
  | _, [] => true
  | [], _ :: _ => false
  | a :: as, b :: bs => a == b && begMatch as bs

/-- `occursIn hay needle`: `needle` occurs as a contiguous substring of `hay`.
This is Python's `needle in hay` for strings (and `re.search` for a literal
pattern). The empty needle occurs in every string. -/
def occursIn (hay needle : List Char) : Bool :=
  match hay with
  | [] => begMatch [] needle
  | _ :: t => begMatch hay needle || occursIn t needle

/-- Python `str.lower()` (ASCII range). -/
def lowerStr (s : String) : String := ⟨s.data.map Char.toLower⟩

/-- Python `str.strip()` (ASCII whitespace). -/
def stripChars (l : List Char) : List Char :=
  ((l.dropWhile Char.isWhitespace).reverse.dropWhile Char.isWhitespace).reverse

/-- `s.lower().strip()`: the normalisation applied both to queries
(`recommender.py` line 40) and to the catalog columns at load time
(`recommender.py` lines 24-31, `.str.lower().str.strip()`). -/
def pyLowerStrip (s : String) : String := ⟨stripChars (lowerStr s).data⟩

/-! ## Patient records (Mongo documents of the `patients` collection) -/

/-- A patient document. Every field a dispatch loop reads is optional
(`p.get(...)`); the ad-hoc `last_sent_<period>` date fields are modelled as an
association list from full field name to stored ISO date string. -/
structure Patient where
  patient_name : Option String := none
  age : Option String := none
  gender : Option String := none
  email : Option String := none
  disease : Option String := none
  medicine : Option String := none
  medicine_suggestion : Option String := none
  dosage : Option String := none
  time_to_take : Option String := none
  timing : Option String := none
  timings : Option String := none
  notes : Option String := none
  created_at : Option String := none
  markers : List (String × String) := []
deriving DecidableEq

/-- `p.get(k)` over the marker fields: first binding of the key, if any. -/
def lookupMarker : List (String × String) → String → Option String
  | [], _ => none
  | (k, v) :: t, key => if k = key then some v else lookupMarker t key

/-- `update_one({"_id": ...}, {"$set": {key: v}})` on the marker fields:
overwrite the binding of `key`, or append it. -/
def setMarker : List (String × String) → String → String → List (String × String)
  | [], key, v => [(key, v)]
  | (k, w) :: t, key, v => if k = key then (k, v) :: t else (k, w) :: setMarker t key v

/-- The meta field name `f"last_sent_{period}"`. -/
def metaField (period : String) : String := "last_sent_" ++ period

/-- Python `a or b or c or ""` over optional string fields: the first present,
non-empty value, else `""` (scheduler.py line 109). -/
def firstTruthy : List (Option String) → String
  | [] => ""
  | none :: t => firstTruthy t
  | some s :: t => if s = "" then firstTruthy t else s

/-- The timing text used for eligibility
(`p.get("time_to_take") or p.get("timing") or p.get("timings") or ""`). -/
def timingField (p : Patient) : String :=
  firstTruthy [p.time_to_take, p.timing, p.timings]

/-- `email = p.get("email", "N/A")` (scheduler.py line 124). -/
def emailOf (p : Patient) : String := p.email.getD "N/A"

/-! ## Period classification (scheduler.py `patient_matches_period`) -/

/-- The alternatives of the regex chosen for `period` in scheduler.py lines
66-70; `patterns.get(period, "")` yields the empty pattern for any other
period, i.e. the single empty alternative. -/
def periodPattern (period : String) : List String :=
  if period = "morning" then ["morning", "morn", "am", "breakfast"]
  else if period = "afternoon" then ["afternoon", "noon", "midday", "pm", "lunch"]
  else if period = "night" then ["night", "evening", "bedtime", "dinner"]
  else [""]

/-- `re.search(alt1|alt2|..., text) is not None` for literal alternatives. -/
def regexAltSearch (alts : List String) (text : String) : Bool :=
  alts.any (fun a => occursIn text.data a.data)

/-- scheduler.py lines 61-71: empty text never matches; otherwise lowercase the
text and search the period's pattern in it. -/
def patient_matches_period (patient_timing_field period : String) : Bool :=
  if patient_timing_field = "" then false
  else regexAltSearch (periodPattern period) (lowerStr patient_timing_field)

/-! ## The dispatch loop (scheduler.py `send_batch_for_period`) -/

/-- What happened to one patient in a dispatch run. -/
inductive Outcome where
  | notEligible
  | alreadySent
  | badEmail
  | sent
  | failed
deriving DecidableEq

/-- The body of the `for p in cursor` loop of `send_batch_for_period`
(scheduler.py lines 107-176), for one patient: the successive `continue`
guards (period mismatch, marker already set today, invalid email), then the
send; on success the period marker is set to `today`. `ok` is the boolean
result of `send_email`. The code lowercases the timing text (line 110) and
`patient_matches_period` lowercases it again. -/
def stepPatient (period today : String) (ok : Bool) (p : Patient) : Outcome × Patient :=
  if patient_matches_period (lowerStr (timingField p)) period = false then
    (Outcome.notEligible, p)
  else if lookupMarker p.markers (metaField period) = some today then
    (Outcome.alreadySent, p)
  else if emailOf p = "" ∨ occursIn (emailOf p).data ['@'] = false then
    (Outcome.badEmail, p)
  else if ok then
    (Outcome.sent, { p with markers := setMarker p.markers (metaField period) today })
  else
    (Outcome.failed, p)

/-- The dispatch loop over the whole collection: outcome and resulting
document for each patient, in order. `i` is the position of the next patient,
used only to consult the send oracle. -/
def batchResults (period today : String) (sendOk : Nat → Bool) :
    Nat → List Patient → List (Outcome × Patient)
  | _, [] => []
  | i, p :: ps =>
      stepPatient period today (sendOk i) p :: batchResults period today sendOk (i + 1) ps

/-- scheduler.py `send_batch_for_period`: the sent count, the failed count and
the updated collection. -/
def send_batch_for_period (period today : String) (sendOk : Nat → Bool)
    (ps : List Patient) : Nat × Nat × List Patient :=
  let rs := batchResults period today sendOk 0 ps
  (rs.countP (fun r => decide (r.1 = Outcome.sent)),
   rs.countP (fun r => decide (r.1 = Outcome.failed)),
   rs.map Prod.snd)

/-! ## The duplicate dispatcher in app.py (`matches_period`, `run_reminder_job`) -/

/-- The pattern table of app.py lines 279-283. Unlike scheduler.py it has no
`morn`/`midday`, and places `pm` under `night`; `patterns[period]` raises
`KeyError` for any other period, hence the `Option`. -/
def appPatterns (period : String) : Option (List String) :=
  if period = "morning" then some ["morning", "am", "breakfast"]
  else if period = "afternoon" then some ["afternoon", "noon", "lunch"]
  else if period = "night" then some ["night", "pm", "evening", "dinner", "bedtime"]
  else none

/-- app.py lines 275-284: empty text never matches (checked before the table
access); otherwise the table access can raise (`none`). -/
def matches_period (timing_field period : String) : Option Bool :=
  if timing_field = "" then some false
  else (appPatterns period).map (fun alts => regexAltSearch alts (lowerStr timing_field))

/-- The body of the `for p in patients` loop of app.py `run_reminder_job`
(lines 323-331) for one patient: only `time_to_take` is read (default `""`);
`send_reminder_email` returns `False` on any exception — in particular a
missing `email` key makes `patient["email"]` raise inside the `try`, so the
send can only succeed when the email field is present; on success the marker
is set. The `Bool` of the result is "a send succeeded and was counted". -/
def app_stepPatient (period today : String) (ok : Bool) (p : Patient) :
    Option (Bool × Patient) :=
  (matches_period (p.time_to_take.getD "") period).map (fun m =>
    if m = false then (false, p)
    else if lookupMarker p.markers (metaField period) = some today then (false, p)
    else if p.email.isSome && ok then
      (true, { p with markers := setMarker p.markers (metaField period) today })
    else (false, p))

/-- The app.py dispatch loop; `none` models an uncaught `KeyError` escaping
from `matches_period` on an unrecognised period. -/
def appBatchResults (period today : String) (sendOk : Nat → Bool) :
    Nat → List Patient → Option (List (Bool × Patient))
  | _, [] => some []
  | i, p :: ps =>
      match app_stepPatient period today (sendOk i) p with
      | none => none
      | some r =>
          match appBatchResults period today sendOk (i + 1) ps with
          | none => none
          | some rs => some (r :: rs)

/-- app.py `run_reminder_job`: the reported sent count and the updated
collection (or an uncaught exception). -/
def run_reminder_job (period today : String) (sendOk : Nat → Bool)
    (ps : List Patient) : Option (Nat × List Patient) :=
  (appBatchResults period today sendOk 0 ps).map (fun rs =>
    (rs.countP (fun r => r.1), rs.map Prod.snd))

/-! ## The disease matcher (recommender.py)

### Catalog entries and output shape -/

/-- One row of the treatment catalog (`disease_medicine_schedule.xlsx` after
the column renaming of `recommender.py` line 13). -/
structure Entry where
  disease : String
  medicine : String
  dosage : String
  time_to_take : String
deriving DecidableEq

/-- The dictionary returned by `Recommender.recommend`. -/
structure RecOut where
  disease : String
  medicine : String
  dosage : String
  time_to_take : String
deriving DecidableEq

/-- Python `str.capitalize()`: first character upper-cased, the rest
lower-cased (ASCII range). -/
def capitalizeStr (s : String) : String :=
  match s.data with
  | [] => ""
  | c :: cs => ⟨c.toUpper :: cs.map Char.toLower⟩

/-- `Recommender._format_output` (recommender.py lines 68-75). -/
def formatOutput (row : Entry) : RecOut :=
  ⟨capitalizeStr row.disease, capitalizeStr row.medicine, row.dosage, row.time_to_take⟩

/-- `Recommender._fallback` (recommender.py lines 77-84). -/
def fallbackOut (disease_query : String) : RecOut :=
  ⟨capitalizeStr disease_query, "Consult Doctor for Proper Medicine", "N/A", "N/A"⟩

/-- The dataset cleaning applied to every column at load time
(recommender.py lines 24-31): `astype(str).str.lower().str.strip()`. -/
def cleanEntry (e : Entry) : Entry :=
  ⟨pyLowerStrip e.disease, pyLowerStrip e.medicine,
   pyLowerStrip e.dosage, pyLowerStrip e.time_to_take⟩

/-- The catalog as held by a constructed `Recommender`: the loaded rows with
every column cleaned (`Recommender.__init__`). -/
def Recommender.init (rows : List Entry) : List Entry := rows.map cleanEntry

/-! ### Step 1 — partial match (recommender.py lines 45-47) -/

/-- The `for _, row in self.df.iterrows()` scan: first entry whose disease
contains the query as a substring. -/
def firstSubstrHit (query : String) : List Entry → Option Entry
  | [] => none
  | e :: t =>
      if occursIn e.disease.data query.data = true then some e
      else firstSubstrHit query t

/-! ### Step 2 — TF-IDF similarity (recommender.py lines 34-35, 49-57)

`TfidfVectorizer(stop_words="english")` with its defaults:
tokens are maximal runs of word characters of length ≥ 2 (token pattern
`\b\w\w+\b`), lower-cased, with English stop words removed; the vocabulary is
the alphabetically sorted set of corpus tokens; a document maps to the vector
of its raw token counts scaled per term by `idf(t) = ln((1+n)/(1+df(t))) + 1`
and l2-normalised, and `cosine_similarity` of the normalised vectors is their
dot product.

The idf weights are not exactly representable (natural logarithms computed in
float64), so they are kept abstract: the similarity stage takes a weight list
`w`, one weight per vocabulary index standing for idf(t)², positive for the
genuine weights (idf ≥ 1 always). With `qc`/`dc` the query/document count
vectors, the cosine score is

  score = A / √(Q2·N2),  A = Σ qc·dc·w,  Q2 = Σ qc²·w,  N2 = Σ dc²·w,

zero when either norm is zero. Every comparison the code performs on scores
(argmax, `score >= 0.1`) is decided exactly on the data `(A, Q2, N2)` by
squaring, valid because `A ≥ 0` and the threshold is ≥ 0. The weights are
taken in `ℕ` without loss of generality: every score is invariant under
scaling all weights by a common positive factor (`A`, `Q2`, `N2` scale
together), and the weight vector the program actually computes is a vector of
float64 values, i.e. of nonnegative rationals, which a common denominator
rescales to naturals. -/

/-- A word character of the token pattern `\w` (ASCII range). -/
def wordChar (c : Char) : Bool := c.isAlphanum || c == '_'

/-- Maximal runs of word characters (fuel-driven; fuel `≥ l.length` always
suffices since every step consumes at least one character). -/
def splitRunsF : Nat → List Char → List (List Char)
  | 0, _ => []
  | f + 1, l =>
      let l1 := l.dropWhile (fun c => !wordChar c)
      if l1 = [] then []
      else (l1.takeWhile wordChar) :: splitRunsF f (l1.dropWhile wordChar)

/-- scikit-learn's frozen `ENGLISH_STOP_WORDS` list (the Glasgow IR stop list,
reproduced verbatim, inherited misspellings included). -/
def englishStopWords : List String :=
  ["a", "about", "above", "across", "after", "afterwards", "again", "against",
   "all", "almost", "alone", "along", "already", "also", "although", "always",
   "am", "among", "amongst", "amoungst", "amount", "an", "and", "another",
   "any", "anyhow", "anyone", "anything", "anyway", "anywhere", "are",
   "around", "as", "at", "back", "be", "became", "because", "become",
   "becomes", "becoming", "been", "before", "beforehand", "behind", "being",
   "below", "beside", "besides", "between", "beyond", "bill", "both",
   "bottom", "but", "by", "call", "can", "cannot", "cant", "co", "con",
   "could", "couldnt", "cry", "de", "describe", "detail", "do", "done",
   "down", "due", "during", "each", "eg", "eight", "either", "eleven",
   "else", "elsewhere", "empty", "enough", "etc", "even", "ever", "every",
   "everyone", "everything", "everywhere", "except", "few", "fifteen",
   "fify", "fill", "find", "fire", "first", "five", "for", "former",
   "formerly", "forty", "found", "four", "from", "front", "full", "further",
   "get", "give", "go", "had", "has", "hasnt", "have", "he", "hence", "her",
   "here", "hereafter", "hereby", "herein", "hereupon", "hers", "herself",
   "him", "himself", "his", "how", "however", "hundred", "i", "ie", "if",
   "in", "inc", "indeed", "interest", "into", "is", "it", "its", "itself",
   "keep", "last", "latter", "latterly", "least", "less", "ltd", "made",
   "many", "may", "me", "meanwhile", "might", "mill", "mine", "more",
   "moreover", "most", "mostly", "move", "much", "must", "my", "myself",
   "name", "namely", "neither", "never", "nevertheless", "next", "nine",
   "no", "nobody", "none", "noone", "nor", "not", "nothing", "now",
   "nowhere", "of", "off", "often", "on", "once", "one", "only", "onto",
   "or", "other", "others", "otherwise", "our", "ours", "ourselves", "out",
   "over", "own", "part", "per", "perhaps", "please", "put", "rather", "re",
   "same", "see", "seem", "seemed", "seeming", "seems", "serious",
   "several", "she", "should", "show", "side", "since", "sincere", "six",
   "sixty", "so", "some", "somehow", "someone", "something", "sometime",
   "sometimes", "somewhere", "still", "such", "system", "take", "ten",
   "than", "that", "the", "their", "them", "themselves", "then", "thence",
   "there", "thereafter", "thereby", "therefore", "therein", "thereupon",
   "these", "they", "thick", "thin", "third", "this", "those", "though",
   "three", "through", "throughout", "thru", "thus", "to", "together",
   "too", "top", "toward", "towards", "twelve", "twenty", "two", "un",
   "under", "until", "up", "upon", "us", "very", "via", "was", "we", "well",
   "were", "what", "whatever", "when", "whence", "whenever", "where",
   "whereafter", "whereas", "whereby", "wherein", "whereupon", "wherever",
   "whether", "which", "while", "whither", "who", "whoever", "whole",
   "whom", "whose", "why", "will", "with", "within", "without", "would",
   "yet", "you", "your", "yours", "yourself", "yourselves"]

/-- The vectorizer's analyzer: lowercase, extract `\w\w+` tokens, drop stop
words. Applied both when fitting the catalog and when transforming a query. -/
def tokenize (s : String) : List String :=
  (((splitRunsF (lowerStr s).data.length (lowerStr s).data).filter
      (fun r => 2 ≤ r.length)).map (fun r => (⟨r⟩ : String))).filter
    (fun t => !(englishStopWords.contains t))

/-- Insert into a `<`-sorted list of strings (code-point lexicographic order,
as Python compares strings). -/
def insertSorted (s : String) : List String → List String
  | [] => [s]
  | x :: xs => if s < x then s :: x :: xs else x :: insertSorted s xs

/-- The sorted set of a list of strings: the fitted, alphabetically sorted
vocabulary. -/
def sortDedup (l : List String) : List String :=
  l.foldl (fun acc s => if s ∈ acc then acc else insertSorted s acc) []

/-- The diseases column, in catalog order. -/
def diseasesOf (catalog : List Entry) : List String := catalog.map (fun e => e.disease)

/-- The vocabulary fitted from all catalog diseases at load time. -/
def catalogVocab (catalog : List Entry) : List String :=
  sortDedup ((diseasesOf catalog).map tokenize).flatten

/-- Raw term counts of a token list over the vocabulary. -/
def countsVec (voc : List String) (toks : List String) : List Nat :=
  voc.map (fun t => toks.count t)

/-- Weighted dot product `Σ wᵢ·xᵢ·yᵢ` of two count vectors. -/
def dotW : List Nat → List Nat → List Nat → Nat
  | w :: ws, x :: xs, y :: ys => w * x * y + dotW ws xs ys
  | _, _, _ => 0

/-- The query's count vector over the fitted vocabulary
(`self.vectorizer.transform([query])`). -/
def queryCounts (catalog : List Entry) (query : String) : List Nat :=
  countsVec (catalogVocab catalog) (tokenize query)

/-- Count vectors of every catalog disease (`self.vectors`), catalog order. -/
def docCountsOf (catalog : List Entry) : List (List Nat) :=
  (diseasesOf catalog).map (fun d => countsVec (catalogVocab catalog) (tokenize d))

/-- `Q2`: the squared weighted norm of the query vector. -/
def q2Of (w : List Nat) (catalog : List Entry) (query : String) : Nat :=
  dotW w (queryCounts catalog query) (queryCounts catalog query)

/-- Per catalog entry, the pair `(A, N2)`: weighted dot product with the query
and squared weighted norm of the document, from which its cosine score is
`A / √(Q2·N2)` (0 if a norm is 0). -/
def scoresOf (w : List Nat) (catalog : List Entry) (query : String) : List (Nat × Nat) :=
  (docCountsOf catalog).map
    (fun c => (dotW w (queryCounts catalog query) c, dotW w c c))

/-- Exact strict comparison of two encoded cosine scores sharing `q2`:
a zero score (zero `A` or zero norm) is below exactly the nonzero scores, and
`A₁/√(q2·N₁) < A₂/√(q2·N₂) ↔ A₁²·N₂ < A₂²·N₁` otherwise (all data
nonnegative). -/
def scoreLtB (q2 : Nat) (s t : Nat × Nat) : Bool :=
  if t.1 = 0 ∨ q2 = 0 ∨ t.2 = 0 then false
  else if s.1 = 0 ∨ s.2 = 0 then true
  else decide (s.1 ^ 2 * t.2 < t.1 ^ 2 * s.2)

/-- `numpy.argmax` over the encoded scores: index of the maximum, first
occurrence on ties (the running best is replaced only by a strictly greater
score). -/
def argmaxFrom (q2 : Nat) : Nat → (Nat × Nat) → Nat → List (Nat × Nat) → Nat
  | bi, _, _, [] => bi
  | bi, bs, i, sc :: rest =>
      if scoreLtB q2 bs sc then argmaxFrom q2 i sc (i + 1) rest
      else argmaxFrom q2 bi bs (i + 1) rest

/-- `similarity.argmax()` (0 on an empty list, a case `__init__` cannot
produce: the vectorizer refuses an empty catalog). -/
def argmaxScore (q2 : Nat) : List (Nat × Nat) → Nat
  | [] => 0
  | sc :: rest => argmaxFrom q2 0 sc 1 rest

/-- `score ≥ tn/td` for an encoded score and a threshold fraction
`tn/td ≥ 0`, `td > 0`: `0 ≥ tn/td ↔ tn = 0` for a zero score, else
`A/√(q2·N2) ≥ tn/td ↔ A²·td² ≥ tn²·q2·N2`. -/
def simGeB (q2 : Nat) (sc : Nat × Nat) (tn td : Nat) : Bool :=
  if sc.1 = 0 ∨ q2 = 0 ∨ sc.2 = 0 then decide (tn = 0)
  else decide (sc.1 ^ 2 * td ^ 2 ≥ tn ^ 2 * (q2 * sc.2))

/-- `idx = similarity.argmax()` (recommender.py line 52). -/
def simIdx (w : List Nat) (catalog : List Entry) (query : String) : Nat :=
  argmaxScore (q2Of w catalog query) (scoresOf w catalog query)

/-- `score >= 0.1` for the argmax score (recommender.py lines 53, 56). -/
def simTopPass (w : List Nat) (catalog : List Entry) (query : String) : Bool :=
  simGeB (q2Of w catalog query)
    ((scoresOf w catalog query).getD (simIdx w catalog query) (0, 0)) 1 10

/-! ### Step 3 — fuzzy matching (recommender.py lines 60-63)

`difflib.get_close_matches(query, diseases, n=1, cutoff=0.3)`. In
`get_close_matches` the candidate is sequence `a` and the query word is
sequence `b` of the `SequenceMatcher`; autojunk only acts on sequences of
length ≥ 200, far beyond any query here, so the matcher is embedded without
junk. -/

/-- Length of the common prefix of two character lists. -/
def commonRun : List Char → List Char → Nat
  | a :: as, b :: bs => if a = b then commonRun as bs + 1 else 0
  | _, _ => 0

/-- `SequenceMatcher.find_longest_match` (no junk): of all maximal matching
blocks, the one starting earliest in `a`, then earliest in `b` — the first
`(i, j)` in scan order whose common run reaches the maximal length, since the
running best is replaced only by a strictly longer run. -/
def lmFold (a b : List Char) : Nat × Nat × Nat :=
  (List.range a.length).foldl (fun best i =>
    (List.range b.length).foldl (fun best j =>
      let k := commonRun (a.drop i) (b.drop j)
      if best.2.2 < k then (i, j, k) else best) best) (0, 0, 0)

/-- Total size of all matching blocks (`get_matching_blocks`): recurse on both
sides of the longest match. Fuel `≥ a.length` suffices: both recursive calls
strictly shorten `a` whenever the longest match is nonempty. -/
def matchTotalF : Nat → List Char → List Char → Nat
  | 0, _, _ => 0
  | f + 1, a, b =>
      let r := lmFold a b
      if r.2.2 = 0 then 0
      else
        matchTotalF f (a.take r.1) (b.take r.2.1) + r.2.2 +
        matchTotalF f (a.drop (r.1 + r.2.2)) (b.drop (r.2.1 + r.2.2))

/-- Total matched size between two sequences. -/
def matchTotal (a b : List Char) : Nat := matchTotalF a.length a b

/-!
Ratio values `_calculate_ratio(m, T) = 2·m/T` (1.0 when `T = 0`) are
represented exactly by the pair `(m, T)` and compared by cross
multiplication. -/

/-- The represented ratio `(m, T)` is at least the cutoff fraction `cn/cd`
(`cd > 0`): `2·m/T ≥ cn/cd ↔ 2·m·cd ≥ cn·T` for `T > 0`, and `1 ≥ cn/cd ↔
cd ≥ cn` for `T = 0`. -/
def ratioGe (m T cn cd : Nat) : Bool :=
  if T = 0 then decide (cd ≥ cn) else decide (2 * m * cd ≥ cn * T)

/-- Strict comparison of two represented ratios. -/
def ratioLtB (p q : Nat × Nat) : Bool :=
  if p.2 = 0 then (if q.2 = 0 then false else decide (q.2 < 2 * q.1))
  else if q.2 = 0 then decide (2 * p.1 < p.2)
  else decide (2 * p.1 * q.2 < 2 * q.1 * p.2)

/-- Equality of two represented ratios. -/
def ratioEqB (p q : Nat × Nat) : Bool :=
  if p.2 = 0 then (if q.2 = 0 then true else decide (q.2 = 2 * q.1))
  else if q.2 = 0 then decide (2 * p.1 = p.2)
  else decide (2 * p.1 * q.2 = 2 * q.1 * p.2)

/-- `SequenceMatcher.ratio()` for candidate `x` against word `w`, as a
represented fraction. -/
def ratioRep (x w : String) : Nat × Nat :=
  (matchTotal x.data w.data, x.length + w.length)

/-- Multiset intersection size of the two character sequences
(`quick_ratio`'s match count). -/
def multisetInter (a b : List Char) : Nat :=
  (a.dedup.map (fun c => min (a.count c) (b.count c))).sum

/-- The filter of `get_close_matches`: `real_quick_ratio`, `quick_ratio` and
`ratio` all at least the cutoff `cn/cd` (the three share the denominator
`T = |x| + |w|`). -/
def gcmPass (x w : String) (cn cd : Nat) : Bool :=
  ratioGe (min x.length w.length) (x.length + w.length) cn cd &&
    ratioGe (multisetInter x.data w.data) (x.length + w.length) cn cd &&
    ratioGe (matchTotal x.data w.data) (x.length + w.length) cn cd

/-- `heapq.nlargest(1, pairs)` over `(ratio, candidate)` pairs: the maximum in
tuple order (ratio value first, then code-point string order), first
occurrence on full ties. -/
def bestTuple : List ((Nat × Nat) × String) → Option ((Nat × Nat) × String)
  | [] => none
  | p :: rest =>
      some (rest.foldl
        (fun b q =>
          if ratioLtB b.1 q.1 = true ∨ (ratioEqB b.1 q.1 = true ∧ b.2 < q.2) then q
          else b) p)

/-- `get_close_matches(word, poss, n=1, cutoff=cn/cd)[0]`, if any candidate
passes. -/
def gcm1 (word : String) (poss : List String) (cn cd : Nat) : Option String :=
  (bestTuple ((poss.filter (fun x => gcmPass x word cn cd)).map
    (fun x => (ratioRep x word, x)))).map Prod.snd

/-- The first catalog row whose disease equals the fuzzy match
(`self.df[self.df[self.disease_col] == close_matches[0]].iloc[0]`). -/
def firstEq (m : String) : List Entry → Option Entry
  | [] => none
  | e :: t => if e.disease = m then some e else firstEq m t

/-! ### The assembled cascade -/

/-- Steps 2-4 of `recommend` (recommender.py lines 49-66), reached when the
substring scan found nothing. The two `fallbackOut` arms inside the matches
are unreachable (a passing similarity score forces a valid argmax index, and a
fuzzy match is drawn from the disease list); in Python those situations would
raise, but they cannot arise — see the argmax-bound and membership lemmas
below. -/
def simFuzzyStage (w : List Nat) (catalog : List Entry) (query : String) : RecOut :=
  if simTopPass w catalog query = true then
    match catalog[simIdx w catalog query]? with
    | some row => formatOutput row
    | none => fallbackOut query
  else
    match gcm1 query (diseasesOf catalog) 3 10 with
    | some m =>
        match firstEq m catalog with
        | some row => formatOutput row
        | none => fallbackOut query
    | none => fallbackOut query

/-- `query = disease_query.lower().strip()` (recommender.py line 40). -/
def normQuery (s : String) : String := pyLowerStrip s

/-- `Recommender.recommend` (recommender.py lines 38-66), parametrised by the
abstract idf² weight list `w` of the fitted vectorizer. -/
def Recommender.recommend (w : List Nat) (catalog : List Entry)
    (disease_query : String) : RecOut :=
  if normQuery disease_query = "" then fallbackOut "No disease entered"
  else
    match firstSubstrHit (normQuery disease_query) catalog with
    | some row => formatOutput row
    | none => simFuzzyStage w catalog (normQuery disease_query)

/-- The catalog of the spec's misspelled-query scenario, as loaded. -/
def diabCatalog : List Entry :=
  Recommender.init [⟨"diabetes", "metformin", "500mg", "morning, night"⟩]

/-! ## Concrete records used in witnesses -/

/-- An eligible, not-yet-reminded patient. -/
def freshPatient : Patient :=
  { time_to_take := some "morning", email := some "a@b.c" }

/-- The same patient after a successful morning send on 2024-01-01. -/
def markedPatient : Patient :=
  { time_to_take := some "morning", email := some "a@b.c",
    markers := [("last_sent_morning", "2024-01-01")] }

/-- An older record carrying only the legacy `timing` field. -/
def legacyPatient : Patient :=
  { timing := some "morning", email := some "a@b.c" }

/-- An eligible patient whose email has no `@`. -/
def invalidPatient : Patient :=
  { time_to_take := some "morning", email := some "not-an-email" }

section SanityChecks

example : occursIn "8am tablet".data "am".data = true := by decide

example : patient_matches_period "8am tablet" "morning" = true := by decide

example : patient_matches_period "after dinner" "night" = true := by decide

example : patient_matches_period "" "morning" = false := by decide

example : matches_period "pm" "afternoon" = some false := by decide

example : patient_matches_period "pm" "afternoon" = true := by decide

example : matches_period "x" "brunch" = none := by decide

example : patient_matches_period "x" "brunch" = true := by decide

example :
    stepPatient "morning" "2024-01-01" true
      { time_to_take := some "morning", email := some "a@b.c" } =
    (Outcome.sent,
      { time_to_take := some "morning", email := some "a@b.c",
        markers := [("last_sent_morning", "2024-01-01")] }) := by decide

example : tokenize "diabetes" = ["diabetes"] := by decide

example : tokenize "diabetis" = ["diabetis"] := by decide

example : catalogVocab diabCatalog = ["diabetes"] := by decide

example : queryCounts diabCatalog "diabetis" = [0] := by decide

example : ratioRep "diabetes" "diabetis" = (7, 16) := by decide

example : gcm1 "diabetis" ["diabetes"] 3 10 = some "diabetes" := by decide

example :
    Recommender.recommend [1] diabCatalog "diabetis" =
      ⟨"Diabetes", "Metformin", "500mg", "morning, night"⟩ := by decide

example : Recommender.recommend [1] diabCatalog "diab" =
    ⟨"Diabetes", "Metformin", "500mg", "morning, night"⟩ := by decide

example : Recommender.recommend [] [] "" =
    ⟨"No disease entered", "Consult Doctor for Proper Medicine", "N/A", "N/A"⟩ := by decide

end SanityChecks

/-! ## Helper lemmas on the scheduler embedding -/

theorem occursIn_nil (hay : List Char) : occursIn hay [] = true := by
  cases hay <;> simp [occursIn, begMatch]

theorem lookupMarker_setMarker_self (ms : List (String × String)) (k v : String) :
    lookupMarker (setMarker ms k v) k = some v := by
  induction ms with
  | nil => simp [setMarker, lookupMarker]
  | cons h t ih =>
      obtain ⟨a, b⟩ := h
      by_cases hk : a = k
      · subst hk; simp [setMarker, lookupMarker]
      · simp [setMarker, lookupMarker, hk, ih]

theorem timingField_set_markers (p : Patient) (m : List (String × String)) :
    timingField { p with markers := m } = timingField p := rfl

theorem emailOf_set_markers (p : Patient) (m : List (String × String)) :
    emailOf { p with markers := m } = emailOf p := rfl

/-- A dispatch step reports `sent` exactly when the record is eligible,
unmarked for today, has a usable email, and the send succeeded. -/
theorem stepPatient_fst_eq_sent_iff (period today : String) (ok : Bool) (p : Patient) :
    (stepPatient period today ok p).1 = Outcome.sent ↔
      (ok = true ∧
       patient_matches_period (lowerStr (timingField p)) period = true ∧
       lookupMarker p.markers (metaField period) ≠ some today ∧
       ¬(emailOf p = "" ∨ occursIn (emailOf p).data ['@'] = false)) := by
  unfold stepPatient
  split_ifs with h1 h2 h3 h4 <;> simp_all

/-- On a successful send, the step's only effect is writing today's date into
the period marker. -/
theorem stepPatient_sent_snd (period today : String) (ok : Bool) (p : Patient)
    (h : (stepPatient period today ok p).1 = Outcome.sent) :
    (stepPatient period today ok p).2 =
      { p with markers := setMarker p.markers (metaField period) today } := by
  unfold stepPatient at h ⊢
  split_ifs at h ⊢
  simp_all

/-- On any outcome other than `sent`, the record is untouched. -/
theorem stepPatient_not_sent_snd (period today : String) (ok : Bool) (p : Patient)
    (h : (stepPatient period today ok p).1 ≠ Outcome.sent) :
    (stepPatient period today ok p).2 = p := by
  unfold stepPatient at h ⊢
  split_ifs at h ⊢ <;> simp_all

/-- Each position of the dispatch result depends only on the record at that
position (and its own send outcome). -/
theorem batchResults_getElem? (period today : String) (ok : Nat → Bool)
    (ps : List Patient) (i j : Nat) :
    (batchResults period today ok j ps)[i]? =
      (ps[i]?).map (fun p => stepPatient period today (ok (j + i)) p) := by
  induction ps generalizing i j with
  | nil => simp [batchResults]
  | cons p t ih =>
      cases i with
      | zero => simp [batchResults]
      | succ k =>
          have harith : j + (k + 1) = (j + 1) + k := by omega
          simp only [batchResults, List.getElem?_cons_succ, harith]
          exact ih k (j + 1)

theorem batchResults_length (period today : String) (ok : Nat → Bool)
    (ps : List Patient) (j : Nat) :
    (batchResults period today ok j ps).length = ps.length := by
  induction ps generalizing j with
  | nil => rfl
  | cons p t ih => simp [batchResults, ih]

/-- Shifting the start index of the dispatch loop is reindexing the send
oracle. -/
theorem batchResults_shift (period today : String) (ok : Nat → Bool)
    (ps : List Patient) (j : Nat) :
    batchResults period today ok (j + 1) ps =
      batchResults period today (fun n => ok (n + 1)) j ps := by
  induction ps generalizing j with
  | nil => rfl
  | cons p t ih => simp only [batchResults, ih (j + 1)]

/-! ## C9 -/

/-- C9: for any period other than `morning`/`afternoon`/`night`, the pattern
table's default is the empty pattern, whose regex search succeeds on every
string, so any record with non-empty timing text is eligible. -/
theorem C9_unknown_period_matches_everything (period : String)
    (h1 : period ≠ "morning") (h2 : period ≠ "afternoon") (h3 : period ≠ "night")
    (t : String) (ht : t ≠ "") :
    patient_matches_period t period = true := by
  unfold patient_matches_period
  rw [if_neg ht]
  unfold periodPattern
  rw [if_neg h1, if_neg h2, if_neg h3]
  simp only [regexAltSearch, List.any_cons, List.any_nil, Bool.or_false]
  exact occursIn_nil _

/-- Witness for C9 at the unrecognised period `"brunch"`. -/
theorem C9_witness :
    ("brunch" ≠ "morning" ∧ "brunch" ≠ "afternoon" ∧ "brunch" ≠ "night" ∧
      "tablet" ≠ "") ∧
    patient_matches_period "tablet" "brunch" = true :=
  ⟨by decide,
   C9_unknown_period_matches_everything "brunch" (by decide) (by decide) (by decide)
     "tablet" (by decide)⟩

/-! ## C3 -/

/-- C3 counterexample: the claim's single pattern table (`afternoon` matching
`pm`, as in scheduler.py) is false of the dispatcher in app.py, whose table
puts `pm` under `night`: on the timing text `"pm"` the two cited dispatchers
disagree for the afternoon period. -/
theorem C3_counterexample :
    patient_matches_period "pm" "afternoon" = true ∧
    matches_period "pm" "afternoon" = some false := by decide

/-- C3 (amended): scheduler.py's `patient_matches_period` uses exactly the
claimed alternatives; app.py's `matches_period` uses
`morning|am|breakfast`, `afternoon|noon|lunch`,
`night|pm|evening|dinner|bedtime`. In both, `"8am tablet"` matches morning,
`"after dinner"` matches night, and empty timing text matches no period. -/
theorem C3_amended_period_tables :
    (∀ t : String, t ≠ "" →
      patient_matches_period t "morning" =
        regexAltSearch ["morning", "morn", "am", "breakfast"] (lowerStr t) ∧
      patient_matches_period t "afternoon" =
        regexAltSearch ["afternoon", "noon", "midday", "pm", "lunch"] (lowerStr t) ∧
      patient_matches_period t "night" =
        regexAltSearch ["night", "evening", "bedtime", "dinner"] (lowerStr t) ∧
      matches_period t "morning" =
        some (regexAltSearch ["morning", "am", "breakfast"] (lowerStr t)) ∧
      matches_period t "afternoon" =
        some (regexAltSearch ["afternoon", "noon", "lunch"] (lowerStr t)) ∧
      matches_period t "night" =
        some (regexAltSearch ["night", "pm", "evening", "dinner", "bedtime"] (lowerStr t))) ∧
    (patient_matches_period "8am tablet" "morning" = true ∧
     matches_period "8am tablet" "morning" = some true ∧
     patient_matches_period "after dinner" "night" = true ∧
     matches_period "after dinner" "night" = some true) ∧
    (∀ period : String,
      patient_matches_period "" period = false ∧ matches_period "" period = some false) := by
  refine ⟨?_, by decide, ?_⟩
  · intro t ht
    unfold patient_matches_period matches_period
    rw [if_neg ht, if_neg ht, if_neg ht, if_neg ht, if_neg ht, if_neg ht]
    rw [show periodPattern "morning" = ["morning", "morn", "am", "breakfast"] from by decide,
        show periodPattern "afternoon" = ["afternoon", "noon", "midday", "pm", "lunch"] from by
          decide,
        show periodPattern "night" = ["night", "evening", "bedtime", "dinner"] from by decide,
        show appPatterns "morning" = some ["morning", "am", "breakfast"] from by decide,
        show appPatterns "afternoon" = some ["afternoon", "noon", "lunch"] from by decide,
        show appPatterns "night" = some ["night", "pm", "evening", "dinner", "bedtime"] from by
          decide]
    simp
  · intro period
    constructor
    · unfold patient_matches_period; rw [if_pos rfl]
    · unfold matches_period; rw [if_pos rfl]

/-- Witness for C3's amended theorem at the text `"3pm dose"`. -/
theorem C3_amended_witness :
    ("3pm dose" ≠ "") ∧
    patient_matches_period "3pm dose" "afternoon" =
      regexAltSearch ["afternoon", "noon", "midday", "pm", "lunch"] (lowerStr "3pm dose") :=
  ⟨by decide, (C3_amended_period_tables.1 "3pm dose" (by decide)).2.1⟩

/-! ## C6 -/

/-- C6 counterexample: a record carrying only the legacy `timing` field is
reminded by scheduler.py's dispatcher but silently skipped (zero sent, store
unchanged) by app.py's `run_reminder_job`, which reads only `time_to_take`. -/
theorem C6_counterexample :
    (stepPatient "morning" "2024-01-01" true legacyPatient).1 = Outcome.sent ∧
    run_reminder_job "morning" "2024-01-01" (fun _ => true) [legacyPatient] =
      some (0, [legacyPatient]) := by decide

/-- C6 (amended): scheduler.py's dispatcher prefers `time_to_take` and falls
back to `timing`, then `timings`, when the earlier fields are absent or
empty; app.py's `run_reminder_job` reads only `time_to_take` (default `""`),
so a record without that field sends nothing and is left unchanged there. -/
theorem C6_amended_fallback_chain :
    (∀ (p : Patient) (s : String), p.time_to_take = some s → s ≠ "" →
      timingField p = s) ∧
    (∀ (p : Patient) (s : String),
      (p.time_to_take = none ∨ p.time_to_take = some "") →
      p.timing = some s → s ≠ "" → timingField p = s) ∧
    (∀ (p : Patient) (s : String),
      (p.time_to_take = none ∨ p.time_to_take = some "") →
      (p.timing = none ∨ p.timing = some "") →
      p.timings = some s → s ≠ "" → timingField p = s) ∧
    (∀ (p : Patient) (period today : String) (ok : Bool),
      p.time_to_take = none →
      app_stepPatient period today ok p = some (false, p)) := by
  refine ⟨?_, ?_, ?_, ?_⟩
  · intro p s h hs
    simp [timingField, firstTruthy, h, hs]
  · intro p s h1 h2 hs
    rcases h1 with h1 | h1 <;> simp [timingField, firstTruthy, h1, h2, hs]
  · intro p s h1 h2 h3 hs
    rcases h1 with h1 | h1 <;> rcases h2 with h2 | h2 <;>
      simp [timingField, firstTruthy, h1, h2, h3, hs]
  · intro p period today ok h
    simp [app_stepPatient, matches_period, h]

/-- Witness for C6's amended theorem on the legacy-only record. -/
theorem C6_amended_witness :
    ((legacyPatient.time_to_take = none ∨ legacyPatient.time_to_take = some "") ∧
      legacyPatient.timing = some "morning" ∧ "morning" ≠ "" ∧
      legacyPatient.time_to_take = none) ∧
    timingField legacyPatient = "morning" ∧
    app_stepPatient "morning" "2024-01-01" true legacyPatient =
      some (false, legacyPatient) :=
  ⟨by decide,
   C6_amended_fallback_chain.2.1 legacyPatient "morning" (Or.inl (by decide)) (by decide)
     (by decide),
   C6_amended_fallback_chain.2.2.2 legacyPatient "morning" "2024-01-01" true (by decide)⟩

/-! ## C1 -/

/-- C1: idempotency of the reminder job. (i) A record whose period marker
already equals today is never reported `sent` and is left unchanged by
scheduler.py's dispatch step; (ii) likewise app.py's step sends nothing to it
(or the whole job raises on an unknown period); (iii) a patient sent to in one
run of `send_batch_for_period` is classified `alreadySent` — no email — at the
same position in any second run over the updated store with the same `today`,
whatever the send oracles. -/
theorem C1_marker_idempotency :
    (∀ (period today : String) (ok : Bool) (p : Patient),
        lookupMarker p.markers (metaField period) = some today →
        (stepPatient period today ok p).1 ≠ Outcome.sent ∧
        (stepPatient period today ok p).2 = p) ∧
    (∀ (period today : String) (ok : Bool) (p : Patient),
        lookupMarker p.markers (metaField period) = some today →
        app_stepPatient period today ok p = some (false, p) ∨
        app_stepPatient period today ok p = none) ∧
    (∀ (period today : String) (ok1 ok2 : Nat → Bool) (ps : List Patient) (i : Nat)
        (r : Outcome × Patient),
        (batchResults period today ok1 0 ps)[i]? = some r →
        r.1 = Outcome.sent →
        ((batchResults period today ok2 0
            (send_batch_for_period period today ok1 ps).2.2)[i]?).map Prod.fst =
          some Outcome.alreadySent) := by
  refine ⟨?_, ?_, ?_⟩
  · intro period today ok p h
    unfold stepPatient
    split_ifs <;> simp_all
  · intro period today ok p h
    cases hm : matches_period (p.time_to_take.getD "") period with
    | none => right; simp [app_stepPatient, hm]
    | some m =>
        left
        cases m <;> simp [app_stepPatient, hm, h]
  · intro period today ok1 ok2 ps i r hget hr
    have hget0 : (ps[i]?).map (fun p => stepPatient period today (ok1 (0 + i)) p) = some r := by
      rw [← batchResults_getElem?]; exact hget
    obtain ⟨p, hp, hstep⟩ := Option.map_eq_some'.mp hget0
    have hsent : (stepPatient period today (ok1 (0 + i)) p).1 = Outcome.sent := by
      rw [hstep]; exact hr
    obtain ⟨hok, helig, hmark, hemail⟩ := (stepPatient_fst_eq_sent_iff _ _ _ _).mp hsent
    have hr2 : r.2 = { p with markers := setMarker p.markers (metaField period) today } := by
      rw [← hstep]; exact stepPatient_sent_snd _ _ _ _ hsent
    have hlist : (send_batch_for_period period today ok1 ps).2.2 =
        (batchResults period today ok1 0 ps).map Prod.snd := rfl
    rw [hlist, batchResults_getElem?, List.getElem?_map, hget]
    simp only [Option.map_some', Option.some.injEq]
    rw [hr2]
    simp [stepPatient, timingField_set_markers, helig, lookupMarker_setMarker_self]

/-- Witness for C1: a marked record is skipped by both dispatch steps, and the
patient sent to in a first concrete run is `alreadySent` in the second. -/
theorem C1_witness :
    (lookupMarker markedPatient.markers (metaField "morning") = some "2024-01-01" ∧
     (batchResults "morning" "2024-01-01" (fun _ => true) 0 [freshPatient])[0]? =
       some (Outcome.sent, markedPatient) ∧
     (Outcome.sent, markedPatient).1 = Outcome.sent) ∧
    ((stepPatient "morning" "2024-01-01" true markedPatient).1 ≠ Outcome.sent ∧
     (stepPatient "morning" "2024-01-01" true markedPatient).2 = markedPatient) ∧
    (app_stepPatient "morning" "2024-01-01" true markedPatient =
        some (false, markedPatient) ∨
     app_stepPatient "morning" "2024-01-01" true markedPatient = none) ∧
    ((batchResults "morning" "2024-01-01" (fun _ => true) 0
        (send_batch_for_period "morning" "2024-01-01" (fun _ => true)
          [freshPatient]).2.2)[0]?).map Prod.fst = some Outcome.alreadySent :=
  ⟨by decide,
   C1_marker_idempotency.1 "morning" "2024-01-01" true markedPatient (by decide),
   C1_marker_idempotency.2.1 "morning" "2024-01-01" true markedPatient (by decide),
   C1_marker_idempotency.2.2 "morning" "2024-01-01" (fun _ => true) (fun _ => true)
     [freshPatient] 0 (Outcome.sent, markedPatient) (by decide) (by decide)⟩

/-! ## C5 -/

theorem countP_sent_add_countP_failed_le (rs : List (Outcome × Patient)) :
    rs.countP (fun r => decide (r.1 = Outcome.sent)) +
      rs.countP (fun r => decide (r.1 = Outcome.failed)) ≤ rs.length := by
  induction rs with
  | nil => simp
  | cons r t ih =>
      cases ho : r.1 <;> simp [List.countP_cons, ho] <;> omega

/-- C5: per-patient failure atomicity and batch completion. The step reports
`sent` exactly when the record is eligible, unmarked, has a usable email and
the send succeeded; a successful send writes today into the period marker; on
every other outcome — in particular a failed send — the record is unchanged;
and the batch always yields a store of the same size with
`sent + failed ≤ #patients` as its reported summary. -/
theorem C5_failure_atomicity :
    (∀ (period today : String) (ok : Bool) (p : Patient),
        (stepPatient period today ok p).1 = Outcome.sent ↔
          (ok = true ∧
           patient_matches_period (lowerStr (timingField p)) period = true ∧
           lookupMarker p.markers (metaField period) ≠ some today ∧
           ¬(emailOf p = "" ∨ occursIn (emailOf p).data ['@'] = false))) ∧
    (∀ (period today : String) (ok : Bool) (p : Patient),
        (stepPatient period today ok p).1 = Outcome.sent →
        lookupMarker (stepPatient period today ok p).2.markers (metaField period) =
          some today) ∧
    (∀ (period today : String) (ok : Bool) (p : Patient),
        (stepPatient period today ok p).1 ≠ Outcome.sent →
        (stepPatient period today ok p).2 = p) ∧
    (∀ (period today : String) (sendOk : Nat → Bool) (ps : List Patient),
        (send_batch_for_period period today sendOk ps).2.2.length = ps.length ∧
        (send_batch_for_period period today sendOk ps).1 +
          (send_batch_for_period period today sendOk ps).2.1 ≤ ps.length) := by
  refine ⟨stepPatient_fst_eq_sent_iff, ?_, stepPatient_not_sent_snd, ?_⟩
  · intro period today ok p h
    rw [stepPatient_sent_snd period today ok p h]
    exact lookupMarker_setMarker_self p.markers (metaField period) today
  · intro period today sendOk ps
    constructor
    · show ((batchResults period today sendOk 0 ps).map Prod.snd).length = ps.length
      rw [List.length_map, batchResults_length]
    · show (batchResults period today sendOk 0 ps).countP
          (fun r => decide (r.1 = Outcome.sent)) +
        (batchResults period today sendOk 0 ps).countP
          (fun r => decide (r.1 = Outcome.failed)) ≤ ps.length
      rw [← batchResults_length period today sendOk ps 0]
      exact countP_sent_add_countP_failed_le _

/-- Witness for C5: the fresh record sends and is marked; the marked record's
step is not `sent` and leaves it unchanged. -/
theorem C5_witness :
    ((stepPatient "morning" "2024-01-01" true freshPatient).1 = Outcome.sent ∧
     (stepPatient "morning" "2024-01-01" true markedPatient).1 ≠ Outcome.sent) ∧
    lookupMarker (stepPatient "morning" "2024-01-01" true freshPatient).2.markers
        (metaField "morning") = some "2024-01-01" ∧
    (stepPatient "morning" "2024-01-01" true markedPatient).2 = markedPatient :=
  ⟨by decide,
   C5_failure_atomicity.2.1 "morning" "2024-01-01" true freshPatient (by decide),
   C5_failure_atomicity.2.2.1 "morning" "2024-01-01" true markedPatient (by decide)⟩

/-! ## C8 -/

/-- A record whose email is absent, empty or `@`-less is skipped: not sent,
not failed, left unchanged. (An absent email defaults to `"N/A"`, which
contains no `@`.) -/
theorem stepPatient_bad_email (period today : String) (ok : Bool) (p : Patient)
    (h : p.email = none ∨ p.email = some "" ∨
      ∃ e, p.email = some e ∧ occursIn e.data ['@'] = false) :
    (stepPatient period today ok p).1 ≠ Outcome.sent ∧
    (stepPatient period today ok p).1 ≠ Outcome.failed ∧
    (stepPatient period today ok p).2 = p := by
  have hbad : emailOf p = "" ∨ occursIn (emailOf p).data ['@'] = false := by
    rcases h with h | h | ⟨e, he, hno⟩
    · right
      rw [show emailOf p = "N/A" by rw [emailOf, h]; rfl]
      decide
    · left; rw [emailOf, h]; rfl
    · right; rw [emailOf, he]; exact hno
  unfold stepPatient
  split_ifs <;> simp_all

/-- C8: an invalid-email record is skipped without raising — never `sent`,
never `failed`, no marker write — and contributes nothing to the sent count of
the batch it heads. -/
theorem C8_invalid_email_skipped :
    (∀ (period today : String) (ok : Bool) (p : Patient),
        (p.email = none ∨ p.email = some "" ∨
          ∃ e, p.email = some e ∧ occursIn e.data ['@'] = false) →
        (stepPatient period today ok p).1 ≠ Outcome.sent ∧
        (stepPatient period today ok p).1 ≠ Outcome.failed ∧
        (stepPatient period today ok p).2 = p) ∧
    (∀ (period today : String) (sendOk : Nat → Bool) (p : Patient) (ps : List Patient),
        (p.email = none ∨ p.email = some "" ∨
          ∃ e, p.email = some e ∧ occursIn e.data ['@'] = false) →
        (send_batch_for_period period today sendOk (p :: ps)).1 =
          (send_batch_for_period period today (fun n => sendOk (n + 1)) ps).1) := by
  refine ⟨fun period today ok p h => stepPatient_bad_email period today ok p h, ?_⟩
  intro period today sendOk p ps h
  show (stepPatient period today (sendOk 0) p ::
      batchResults period today sendOk 1 ps).countP
        (fun r => decide (r.1 = Outcome.sent)) =
    (batchResults period today (fun n => sendOk (n + 1)) 0 ps).countP
      (fun r => decide (r.1 = Outcome.sent))
  rw [List.countP_cons,
    show batchResults period today sendOk 1 ps =
      batchResults period today (fun n => sendOk (n + 1)) 0 ps from
        batchResults_shift period today sendOk ps 0]
  simp [(stepPatient_bad_email period today (sendOk 0) p h).1]

/-- Witness for C8 on the `"not-an-email"` record. -/
theorem C8_witness :
    (invalidPatient.email = some "not-an-email" ∧
      occursIn "not-an-email".data ['@'] = false) ∧
    ((stepPatient "morning" "2024-01-01" true invalidPatient).1 ≠ Outcome.sent ∧
     (stepPatient "morning" "2024-01-01" true invalidPatient).1 ≠ Outcome.failed ∧
     (stepPatient "morning" "2024-01-01" true invalidPatient).2 = invalidPatient) ∧
    (send_batch_for_period "morning" "2024-01-01" (fun _ => true) [invalidPatient]).1 =
      (send_batch_for_period "morning" "2024-01-01" (fun _ => true) ([] : List Patient)).1 :=
  ⟨by decide,
   C8_invalid_email_skipped.1 "morning" "2024-01-01" true invalidPatient
     (Or.inr (Or.inr ⟨"not-an-email", rfl, by decide⟩)),
   C8_invalid_email_skipped.2 "morning" "2024-01-01" (fun _ => true) invalidPatient []
     (Or.inr (Or.inr ⟨"not-an-email", rfl, by decide⟩))⟩

/-! ## C10 -/

/-- A dispatch step writes today's date into the period marker (from a state
where it was not already there) exactly when it reports `sent`. -/
theorem stepPatient_marker_written_iff (period today : String) (ok : Bool) (p : Patient) :
    ((lookupMarker (stepPatient period today ok p).2.markers (metaField period) =
        some today ∧
      lookupMarker p.markers (metaField period) ≠ some today) ↔
     (stepPatient period today ok p).1 = Outcome.sent) := by
  unfold stepPatient
  split_ifs <;> simp_all [lookupMarker_setMarker_self]

/-- Over a whole run, the number of `sent` outcomes is the number of records
whose period marker the run set to today. -/
theorem batch_sent_count_eq_marker_writes (period today : String) (sendOk : Nat → Bool) :
    ∀ (ps : List Patient) (j : Nat),
      (batchResults period today sendOk j ps).countP
          (fun r => decide (r.1 = Outcome.sent)) =
        (ps.zip ((batchResults period today sendOk j ps).map Prod.snd)).countP
          (fun q => decide (lookupMarker q.2.markers (metaField period) = some today ∧
            lookupMarker q.1.markers (metaField period) ≠ some today)) := by
  intro ps
  induction ps with
  | nil => intro j; rfl
  | cons p t ih =>
      intro j
      simp only [batchResults, List.map_cons, List.zip_cons_cons, List.countP_cons, ih (j + 1)]
      congr 1
      rw [decide_eq_decide.mpr (stepPatient_marker_written_iff period today (sendOk j) p)]

/-- The app.py step's counted flag is true exactly when it wrote the marker. -/
theorem app_stepPatient_marker_iff (period today : String) (ok : Bool) (p : Patient)
    (b : Bool) (p' : Patient)
    (h : app_stepPatient period today ok p = some (b, p')) :
    ((lookupMarker p'.markers (metaField period) = some today ∧
      lookupMarker p.markers (metaField period) ≠ some today) ↔ b = true) := by
  unfold app_stepPatient at h
  cases hm : matches_period (p.time_to_take.getD "") period with
  | none => rw [hm] at h; simp at h
  | some m =>
      rw [hm] at h
      simp only [Option.map_some', Option.some.injEq] at h
      split_ifs at h <;> injection h with hb hp <;> subst hb <;> subst hp <;>
        simp_all [lookupMarker_setMarker_self]

/-- app.py's counted sends are exactly its marker writes. -/
theorem appBatch_sent_count (period today : String) (sendOk : Nat → Bool) :
    ∀ (ps : List Patient) (j : Nat) (rs : List (Bool × Patient)),
      appBatchResults period today sendOk j ps = some rs →
      rs.countP (fun r => r.1) =
        (ps.zip (rs.map Prod.snd)).countP
          (fun q => decide (lookupMarker q.2.markers (metaField period) = some today ∧
            lookupMarker q.1.markers (metaField period) ≠ some today)) := by
  intro ps
  induction ps with
  | nil =>
      intro j rs h
      simp only [appBatchResults, Option.some.injEq] at h
      subst h; rfl
  | cons p t ih =>
      intro j rs h
      unfold appBatchResults at h
      cases hs : app_stepPatient period today (sendOk j) p with
      | none => rw [hs] at h; simp at h
      | some r =>
          rw [hs] at h
          cases hrec : appBatchResults period today sendOk (j + 1) t with
          | none => rw [hrec] at h; simp at h
          | some rs' =>
              rw [hrec] at h
              simp only [Option.some.injEq] at h
              subst h
              obtain ⟨b, p'⟩ := r
              simp only [List.countP_cons, List.map_cons, List.zip_cons_cons]
              rw [ih (j + 1) rs' hrec]
              congr 1
              simp [app_stepPatient_marker_iff period today (sendOk j) p b p' hs]

/-- C10: in one invocation, the reported sent count equals exactly the number
of records whose `last_sent_<period>` marker the invocation wrote with today's
date — for scheduler.py's `send_batch_for_period` and for app.py's
`run_reminder_job` alike. -/
theorem C10_sent_count_marker_correspondence :
    (∀ (period today : String) (sendOk : Nat → Bool) (ps : List Patient),
        (send_batch_for_period period today sendOk ps).1 =
          (ps.zip (send_batch_for_period period today sendOk ps).2.2).countP
            (fun q => decide (lookupMarker q.2.markers (metaField period) = some today ∧
              lookupMarker q.1.markers (metaField period) ≠ some today))) ∧
    (∀ (period today : String) (sendOk : Nat → Bool) (ps : List Patient)
        (n : Nat) (ps' : List Patient),
        run_reminder_job period today sendOk ps = some (n, ps') →
        n = (ps.zip ps').countP
            (fun q => decide (lookupMarker q.2.markers (metaField period) = some today ∧
              lookupMarker q.1.markers (metaField period) ≠ some today))) := by
  constructor
  · intro period today sendOk ps
    exact batch_sent_count_eq_marker_writes period today sendOk ps 0
  · intro period today sendOk ps n ps' h
    unfold run_reminder_job at h
    cases hb : appBatchResults period today sendOk 0 ps with
    | none => rw [hb] at h; simp at h
    | some rs =>
        rw [hb] at h
        simp only [Option.map_some', Option.some.injEq] at h
        injection h with h1 h2
        subst h1; subst h2
        exact appBatch_sent_count period today sendOk ps 0 rs hb

/-- Witness for C10: a concrete app.py run sending one reminder. -/
theorem C10_witness :
    run_reminder_job "morning" "2024-01-01" (fun _ => true) [freshPatient] =
      some (1, [markedPatient]) ∧
    1 = ([freshPatient].zip [markedPatient]).countP
        (fun q => decide (lookupMarker q.2.markers (metaField "morning") =
            some "2024-01-01" ∧
          lookupMarker q.1.markers (metaField "morning") ≠ some "2024-01-01")) :=
  ⟨by decide,
   C10_sent_count_marker_correspondence.2 "morning" "2024-01-01" (fun _ => true)
     [freshPatient] 1 [markedPatient] (by decide)⟩

/-! ## Helper lemmas on the matcher embedding -/

/-- The substring scan finds a hit no later than any given hit. -/
theorem firstSubstrHit_of_mem (q : String) :
    ∀ (catalog : List Entry) (i : Nat) (e : Entry),
      catalog[i]? = some e → occursIn e.disease.data q.data = true →
      ∃ j e', j ≤ i ∧ catalog[j]? = some e' ∧ occursIn e'.disease.data q.data = true ∧
        firstSubstrHit q catalog = some e' := by
  intro catalog
  induction catalog with
  | nil => intro i e h; simp at h
  | cons c t ih =>
      intro i e hget hocc
      by_cases hc : occursIn c.disease.data q.data = true
      · exact ⟨0, c, Nat.zero_le i, by simp, hc, by simp [firstSubstrHit, hc]⟩
      · cases i with
        | zero =>
            rw [List.getElem?_cons_zero, Option.some.injEq] at hget
            subst hget
            exact absurd hocc hc
        | succ k =>
            obtain ⟨j, e', hj, hg, ho, hf⟩ := ih k e (by simpa using hget) hocc
            exact ⟨j + 1, e', Nat.succ_le_succ hj, by simpa using hg, ho,
              by simp [firstSubstrHit, hc, hf]⟩

theorem argmaxFrom_lt (q2 : Nat) :
    ∀ (l : List (Nat × Nat)) (bi : Nat) (bs : Nat × Nat) (i : Nat),
      bi < i → argmaxFrom q2 bi bs i l < i + l.length := by
  intro l
  induction l with
  | nil => intro bi bs i h; simpa [argmaxFrom] using h
  | cons sc rest ih =>
      intro bi bs i h
      simp only [argmaxFrom, List.length_cons]
      split_ifs with hc
      · have := ih i sc (i + 1) (Nat.lt_succ_self i)
        omega
      · have := ih bi bs (i + 1) (Nat.lt_succ_of_lt h)
        omega

/-- The argmax of a nonempty score list is a valid index. -/
theorem argmaxScore_lt (q2 : Nat) (l : List (Nat × Nat)) (h : l ≠ []) :
    argmaxScore q2 l < l.length := by
  cases l with
  | nil => exact absurd rfl h
  | cons sc rest =>
      have := argmaxFrom_lt q2 rest 0 sc 1 (by omega)
      simp only [argmaxScore, List.length_cons]
      omega

theorem bestTuple_foldl_mem :
    ∀ (l : List ((Nat × Nat) × String)) (b : (Nat × Nat) × String),
      (l.foldl (fun b q =>
        if ratioLtB b.1 q.1 = true ∨ (ratioEqB b.1 q.1 = true ∧ b.2 < q.2) then q else b)
        b) ∈ b :: l := by
  intro l
  induction l with
  | nil => intro b; simp
  | cons q t ih =>
      intro b
      simp only [List.foldl_cons]
      by_cases hc : ratioLtB b.1 q.1 = true ∨ (ratioEqB b.1 q.1 = true ∧ b.2 < q.2)
      · rw [if_pos hc]
        rcases List.mem_cons.mp (ih q) with h | h
        · rw [h]; exact List.mem_cons_of_mem b (List.mem_cons_self q t)
        · exact List.mem_cons_of_mem b (List.mem_cons_of_mem q h)
      · rw [if_neg hc]
        rcases List.mem_cons.mp (ih b) with h | h
        · rw [h]; exact List.mem_cons_self b (q :: t)
        · exact List.mem_cons_of_mem b (List.mem_cons_of_mem q h)

theorem bestTuple_mem (l : List ((Nat × Nat) × String)) (p : (Nat × Nat) × String)
    (h : bestTuple l = some p) : p ∈ l := by
  cases l with
  | nil => simp [bestTuple] at h
  | cons hd tl =>
      simp only [bestTuple, Option.some.injEq] at h
      subst h
      exact bestTuple_foldl_mem tl hd

/-- A fuzzy match is one of the offered candidates. -/
theorem gcm1_mem (word : String) (poss : List String) (cn cd : Nat) (m : String)
    (h : gcm1 word poss cn cd = some m) : m ∈ poss := by
  unfold gcm1 at h
  cases hb : bestTuple ((poss.filter (fun x => gcmPass x word cn cd)).map
      (fun x => (ratioRep x word, x))) with
  | none => rw [hb] at h; simp at h
  | some p =>
      rw [hb] at h
      simp only [Option.map_some', Option.some.injEq] at h
      subst h
      have hp := bestTuple_mem _ _ hb
      obtain ⟨x, hx, hxe⟩ := List.mem_map.mp hp
      rw [← hxe]
      exact (List.mem_filter.mp hx).1

/-- A string drawn from the disease column has a first matching row. -/
theorem firstEq_of_mem :
    ∀ (catalog : List Entry) (m : String),
      m ∈ diseasesOf catalog → ∃ e, firstEq m catalog = some e := by
  intro catalog
  induction catalog with
  | nil => intro m hm; simp [diseasesOf] at hm
  | cons c t ih =>
      intro m hm
      by_cases hc : c.disease = m
      · exact ⟨c, by simp [firstEq, hc]⟩
      · have hmem : m ∈ diseasesOf t := by
          simp only [diseasesOf, List.map_cons, List.mem_cons] at hm
          rcases hm with hm | hm
          · exact absurd hm.symm hc
          · exact hm
        obtain ⟨e, he⟩ := ih m hmem
        exact ⟨e, by simp [firstEq, hc, he]⟩

/-! ## C2 -/

/-- C2: for a non-empty normalised query occurring as a substring of some
catalog entry's disease, `recommend` returns that entry formatted — or an
earlier entry in catalog order whose disease also contains the query — and
never the fallback. -/
theorem C2_substring_stage (w : List Nat) (catalog : List Entry) (q : String)
    (hq : normQuery q ≠ "") (i : Nat) (e : Entry)
    (hget : catalog[i]? = some e)
    (hocc : occursIn e.disease.data (normQuery q).data = true) :
    ∃ j e', j ≤ i ∧ catalog[j]? = some e' ∧
      occursIn e'.disease.data (normQuery q).data = true ∧
      Recommender.recommend w catalog q = formatOutput e' := by
  obtain ⟨j, e', hj, hg, ho, hf⟩ := firstSubstrHit_of_mem (normQuery q) catalog i e hget hocc
  refine ⟨j, e', hj, hg, ho, ?_⟩
  simp [Recommender.recommend, hq, hf]

/-- Witness for C2: `"betes"` is a substring of `"diabetes"`. -/
theorem C2_witness :
    (normQuery "betes" ≠ "" ∧
      diabCatalog[0]? = some ⟨"diabetes", "metformin", "500mg", "morning, night"⟩ ∧
      occursIn "diabetes".data (normQuery "betes").data = true) ∧
    ∃ j e', j ≤ 0 ∧ diabCatalog[j]? = some e' ∧
      occursIn e'.disease.data (normQuery "betes").data = true ∧
      Recommender.recommend [1] diabCatalog "betes" = formatOutput e' :=
  ⟨by decide,
   C2_substring_stage [1] diabCatalog "betes" (by decide) 0
     ⟨"diabetes", "metformin", "500mg", "morning, night"⟩ (by decide) (by decide)⟩

/-! ## C7 -/

/-- C7: an empty (or whitespace-only) query yields the fallback shape with the
literal placeholder disease label — never an empty disease string — and the
fixed medicine/dosage/timing values. (`recommend` is a total function of its
query by construction.) -/
theorem C7_empty_query_fallback (w : List Nat) (catalog : List Entry) (q : String)
    (hq : normQuery q = "") :
    Recommender.recommend w catalog q =
      ⟨"No disease entered", "Consult Doctor for Proper Medicine", "N/A", "N/A"⟩ ∧
    (Recommender.recommend w catalog q).disease ≠ "" := by
  have h : Recommender.recommend w catalog q = fallbackOut "No disease entered" := by
    unfold Recommender.recommend
    rw [if_pos hq]
  rw [h]
  exact ⟨by decide, by decide⟩

/-- Witness for C7 on the whitespace-only query `"   "`. -/
theorem C7_witness :
    normQuery "   " = "" ∧
    (Recommender.recommend [] [] "   " =
        ⟨"No disease entered", "Consult Doctor for Proper Medicine", "N/A", "N/A"⟩ ∧
      (Recommender.recommend [] [] "   ").disease ≠ "") :=
  ⟨by decide, C7_empty_query_fallback [] [] "   " (by decide)⟩

/-! ## C4 -/

/-- C4: past a failed substring stage, `recommend` returns the formatted
argmax-similarity entry exactly when the maximal cosine score reaches 0.10;
otherwise the first row matching the best fuzzy candidate when one reaches
ratio 0.30; otherwise the fallback. And the spec's scenario: against the
one-row diabetes catalog (whose only idf weight is exactly 1, since
`ln((1+1)/(1+1)) + 1 = 1`), the misspelled query `"diabetis"` resolves through
the fuzzy stage to the formatted diabetes entry, not the fallback. -/
theorem C4_cascade :
    (∀ (w : List Nat) (catalog : List Entry) (q : String),
        normQuery q ≠ "" →
        firstSubstrHit (normQuery q) catalog = none →
        ((simTopPass w catalog (normQuery q) = true →
            ∃ e, catalog[simIdx w catalog (normQuery q)]? = some e ∧
              Recommender.recommend w catalog q = formatOutput e) ∧
         (simTopPass w catalog (normQuery q) = false →
            ∀ m, gcm1 (normQuery q) (diseasesOf catalog) 3 10 = some m →
              ∃ e, firstEq m catalog = some e ∧
                Recommender.recommend w catalog q = formatOutput e) ∧
         (simTopPass w catalog (normQuery q) = false →
            gcm1 (normQuery q) (diseasesOf catalog) 3 10 = none →
            Recommender.recommend w catalog q = fallbackOut (normQuery q)))) ∧
    Recommender.recommend [1] diabCatalog "diabetis" =
      ⟨"Diabetes", "Metformin", "500mg", "morning, night"⟩ := by
  constructor
  · intro w catalog q hq hfsh
    have hrec : Recommender.recommend w catalog q =
        simFuzzyStage w catalog (normQuery q) := by
      simp [Recommender.recommend, hq, hfsh]
    refine ⟨?_, ?_, ?_⟩
    · intro hpass
      have hne : scoresOf w catalog (normQuery q) ≠ [] := by
        intro h0
        unfold simTopPass at hpass
        rw [h0] at hpass
        simp [simGeB] at hpass
      have hlt : simIdx w catalog (normQuery q) < catalog.length := by
        have h1 : simIdx w catalog (normQuery q) <
            (scoresOf w catalog (normQuery q)).length :=
          argmaxScore_lt _ _ hne
        simpa [scoresOf, docCountsOf, diseasesOf] using h1
      refine ⟨catalog[simIdx w catalog (normQuery q)], List.getElem?_eq_getElem hlt, ?_⟩
      rw [hrec]
      simp [simFuzzyStage, hpass, List.getElem?_eq_getElem hlt]
    · intro hfail m hm
      obtain ⟨e, he⟩ := firstEq_of_mem catalog m (gcm1_mem _ _ _ _ _ hm)
      refine ⟨e, he, ?_⟩
      rw [hrec]
      simp [simFuzzyStage, hfail, hm, he]
    · intro hfail hnone
      rw [hrec]
      simp [simFuzzyStage, hfail, hnone]
  · decide

/-- Witness for C4 exercising the fuzzy arm on the diabetes scenario. -/
theorem C4_witness :
    (normQuery "diabetis" ≠ "" ∧
      firstSubstrHit (normQuery "diabetis") diabCatalog = none ∧
      simTopPass [1] diabCatalog (normQuery "diabetis") = false ∧
      gcm1 (normQuery "diabetis") (diseasesOf diabCatalog) 3 10 = some "diabetes") ∧
    ∃ e, firstEq "diabetes" diabCatalog = some e ∧
      Recommender.recommend [1] diabCatalog "diabetis" = formatOutput e :=
  ⟨by decide,
   (C4_cascade.1 [1] diabCatalog "diabetis" (by decide) (by decide)).2.1 (by decide)
     "diabetes" (by decide)⟩
